import Mathlib

/-!
Verification development for the kiwix-js client sources
(src/www/js/init.js and the UI utility module uiUtil.js).

The JavaScript is shallowly embedded: DOM and browser-storage state is made
explicit as Lean structures, and each function of the source becomes a pure
Lean function from old state (plus the environment inputs the browser would
supply) to new state. JavaScript values that flow through the settings store
are modelled by the inductive type JSVal below.
-/

/-! ## JavaScript values

The settings store and the params object hold strings, booleans, numbers,
null and undefined. We model exactly those. -/

inductive JSVal where
  | null
  | undef
  | bool (b : Bool)
  | num (n : Nat)
  | str (s : String)
deriving DecidableEq

/-- JavaScript string coercion (String(v)) for the values above, as performed
by document.cookie assignment and localStorage.setItem. -/
def jsToString : JSVal → String
  | .null => "null"
  | .undef => "undefined"
  | .bool true => "true"
  | .bool false => "false"
  | .num n => toString n
  | .str s => s

/-- JavaScript truthiness for the values above. -/
def jsTruthy : JSVal → Bool
  | .null => false
  | .undef => false
  | .bool b => b
  | .num n => n != 0
  | .str s => s != ""

/-- JavaScript a || b on modelled values: returns a when a is truthy. -/
def jsOr (a b : JSVal) : JSVal := if jsTruthy a then a else b

/-! ## Association lists

document.cookie (one value per cookie name), localStorage (one value per
key) and the params object (one value per property name) are all flat
string-keyed maps; we model each as an association list with overwriting
insertion. -/

def alGet {α : Type} (k : String) : List (String × α) → Option α
  | [] => none
  | (k2, v2) :: rest => if k2 = k then some v2 else alGet k rest

def alSet {α : Type} (k : String) (v : α) : List (String × α) → List (String × α)
  | [] => [(k, v)]
  | (k2, v2) :: rest => if k2 = k then (k, v) :: rest else (k2, v2) :: alSet k v rest

theorem alGet_alSet_self {α : Type} (k : String) (v : α) (l : List (String × α)) :
    alGet k (alSet k v l) = some v := by
  induction l with
  | nil => simp [alGet, alSet]
  | cons h2 t ih =>
    obtain ⟨k2, v2⟩ := h2
    by_cases hk : k2 = k
    · simp [alGet, alSet, hk]
    · simp [alGet, alSet, hk, ih]

theorem alGet_alSet_ne {α : Type} {k k2 : String} (hne : k2 ≠ k) (v : α)
    (l : List (String × α)) : alGet k2 (alSet k v l) = alGet k2 l := by
  induction l with
  | nil => simp [alGet, alSet, Ne.symm hne]
  | cons h2 t ih =>
    obtain ⟨k3, v3⟩ := h2
    by_cases hk : k3 = k
    · subst hk
      simp [alGet, alSet, Ne.symm hne]
    · simp only [alSet, if_neg hk, alGet]
      by_cases hk2 : k3 = k2 <;> simp [hk2, ih]

/-- Appending a fixed string on the left is injective (used for the
kiwixjs- key space of localStorage). -/
theorem string_append_left_cancel {a b c : String} (h : a ++ b = a ++ c) :
    b = c := by
  have hd : a.data ++ b.data = a.data ++ c.data := by
    have h2 := congrArg String.data h
    simpa [String.data_append] using h2
  have h3 := List.append_cancel_left hd
  cases b; cases c
  exact congrArg String.mk h3

/-! ## Browser builtins used by the settings store

encodeURIComponent and decodeURIComponent are browser builtins.  The
setting names and values handled by this app are URI-safe ASCII strings, on
which both builtins are the identity; we model them as the identity.  The
composite behaviour of the store (encode on write, decode on read) is
unchanged by this modelling, because decodeURIComponent inverts
encodeURIComponent on every string. -/

def encodeURIComponent (s : String) : String := s

def decodeURIComponent (s : String) : String := s

/-! ## The settings store of init.js -/

/-- params keyPrefix (init.js line 50): the key prefix used by the settings
store in localStorage mode. -/
def keyPrefixVal : String := "kiwixjs-"

/-- The two browser stores visible to init.js: the cookie jar and
localStorage, each a flat name-to-text map.  The model assumes cookie names
and values that contain no cookie metacharacters, which holds for every
value the store writes after encodeURIComponent. -/
structure StoreState where
  cookies : List (String × String)
  localStorage : List (String × String)
deriving DecidableEq

def emptyStore : StoreState := ⟨[], []⟩

/-- The Boolean coercion inside setSetting (init.js line 163):
val = val === false ? false : val === true ? true : val, on the text forms. -/
def coerceStoredBool (val : JSVal) : JSVal :=
  if val = .str "false" then .bool false
  else if val = .str "true" then .bool true
  else val

/-- setSetting of init.js (lines 157-167).  In cookie mode the cookie is
written under the bare encoded name; in local_storage mode the key is
keyPrefixVal ++ name.  Any other storeType writes nothing. -/
def setSetting (storeType name : String) (val : JSVal) (st : StoreState) :
    StoreState :=
  let newCookies := alSet (encodeURIComponent name)
    (encodeURIComponent (jsToString val)) st.cookies
  let st1 := if storeType = "cookie" then { st with cookies := newCookies } else st
  let val2 := coerceStoredBool val
  let newLocal := alSet (keyPrefixVal ++ name) (jsToString val2) st1.localStorage
  if storeType = "local_storage" then { st1 with localStorage := newLocal }
  else st1

/-- The conversion applied to the raw lookup result by getSetting
(init.js line 154). -/
def convertRetrievedValue (result : JSVal) : JSVal :=
  if result = .null ∨ result = .str "undefined" then .null
  else if result = .str "true" then .bool true
  else if result = .str "false" then .bool false
  else result

/-- getSetting of init.js (lines 144-155).  In cookie mode the cookie jar is
searched for the bare name; the regular expression ([^;]+) of the source
requires a nonempty value, so a cookie stored with empty text behaves as
absent.  In local_storage mode the key keyPrefixVal ++ name is read.  Any
other storeType leaves the raw result undefined, exactly as the uninitialised
variable of the source. -/
def getSetting (storeType name : String) (st : StoreState) : JSVal :=
  let result : JSVal :=
    if storeType = "cookie" then
      match alGet name st.cookies with
      | some v => if v = "" then .null else .str (decodeURIComponent v)
      | none => .null
    else if storeType = "local_storage" then
      match alGet (keyPrefixVal ++ name) st.localStorage with
      | some v => .str v
      | none => .null
    else .undef
  convertRetrievedValue result

/-! ## The querystring override loop of init.js (lines 87-103)

The source repeatedly applies the regular expression
[?&]([^=]+)=([^&]+) with the g flag to window.location.search.  execQuery
below reproduces that exec loop on the character list of the search string:
a match starts at a question mark or ampersand, the key is the maximal
nonempty run of characters other than the equals sign, and the value is the
maximal nonempty run of characters other than the ampersand; on failure the
scan resumes one character further on, on success it resumes right after the
value. -/

theorem length_dropWhile_le {α : Type} (p : α → Bool) (l : List α) :
    (l.dropWhile p).length ≤ l.length := by
  induction l with
  | nil => simp [List.dropWhile]
  | cons h t ih =>
    by_cases hp : p h
    · simp only [List.dropWhile, hp]
      exact Nat.le_succ_of_le ih
    · simp [List.dropWhile, hp]

def execQuery (cs : List Char) : List (String × String) :=
  match cs with
  | [] => []
  | c :: rest =>
    if c = '?' ∨ c = '&' then
      let key := rest.takeWhile (fun ch => ch ≠ '=')
      let after := rest.dropWhile (fun ch => ch ≠ '=')
      if key.isEmpty then execQuery rest
      else if after.isEmpty then execQuery rest
      else
        let afterEq := after.tail
        let val := afterEq.takeWhile (fun ch => ch ≠ '&')
        if val.isEmpty then execQuery rest
        else (key.asString, val.asString) ::
          execQuery (afterEq.dropWhile (fun ch => ch ≠ '&'))
    else execQuery rest
termination_by cs.length
decreasing_by
  all_goals simp only [List.length_cons]
  all_goals first
    | omega
    | (have h2 := length_dropWhile_le (fun ch => decide (ch ≠ '&'))
        (List.dropWhile (fun ch => decide (ch ≠ '=')) rest).tail
       have h3 : (List.dropWhile (fun ch => decide (ch ≠ '=')) rest).tail.length ≤
           rest.length := by
         have h4 := length_dropWhile_le (fun ch => decide (ch ≠ '=')) rest
         simp only [List.length_tail]
         omega
       omega)

/-- The parsed key-value pairs the override loop extracts from
window.location.search. -/
def parseSearch (search : String) : List (String × String) :=
  execQuery search.data

/-- The Boolean conversion of the override loop (init.js line 97):
paramVal = paramVal === true || (paramVal === false ? false : paramVal),
on the text forms. -/
def qsBoolConvert (paramVal : String) : JSVal :=
  if paramVal = "true" then .bool true
  else if paramVal = "false" then .bool false
  else .str paramVal

/-- The mutable state the override loop touches: the two browser stores and
the params object. -/
structure OverrideState where
  store : StoreState
  params : List (String × JSVal)
deriving DecidableEq

/-- The body of the override while loop for one regexp match (init.js lines
90-101): keys and values must be nonempty, the title key is skipped, every
other pair is URI-decoded, Boolean-converted, persisted with setSetting and
assigned to params. -/
def overrideStep (storeType : String) (os : OverrideState)
    (kv : String × String) : OverrideState :=
  if kv.1 ≠ "" ∧ kv.2 ≠ "" then
    let paramKey := decodeURIComponent kv.1
    let paramVal := decodeURIComponent kv.2
    if paramKey ≠ "title" then
      let pv := qsBoolConvert paramVal
      { store := setSetting storeType paramKey pv os.store,
        params := alSet paramKey pv os.params }
    else os
  else os

/-- The override loop of init.js applied to a whole search string. -/
def overrideParams (storeType search : String) (os : OverrideState) :
    OverrideState :=
  (parseSearch search).foldl (overrideStep storeType) os

/-- The value the override loop leaves for decoded key K: the raw value of
the last processed pair whose decoded key is K (pairs with empty key or
value are skipped by the loop guard and never occur in parsed output). -/
def lastQueryVal (K : String) : List (String × String) → Option String
  | [] => none
  | (k, v) :: ps =>
    match lastQueryVal K ps with
    | some w => some w
    | none =>
      if k ≠ "" ∧ v ≠ "" ∧ decodeURIComponent k = K then some v else none

/-! ## The parameter-resolution sequence of init.js -/

/-- The params assignments of init.js lines 42-79, in source order, reading
the stored settings of the given store.  swAvailable models
serviceWorker in navigator; useCanvasElementsForWebpTranscoding is set to
null, its value being determined later by uiUtil. -/
def initDefaults (storeType : String) (swAvailable : Bool) (st : StoreState) :
    List (String × JSVal) :=
  let g := fun n => getSetting storeType n st
  let p : List (String × JSVal) := []
  let p := alSet "appVersion" (.str "3.10.0") p
  let p := alSet "PWAServer" (.str "https://browser-extension.kiwix.org/current/") p
  let p := alSet "storeType" (.str storeType) p
  let p := alSet "keyPrefix" (.str keyPrefixVal) p
  let p := alSet "hideActiveContentWarning"
    (.bool (g "hideActiveContentWarning" = .bool true)) p
  let p := alSet "showUIAnimations" (.bool (g "showUIAnimations" ≠ .bool false)) p
  let p := alSet "maxSearchResultsSize" (jsOr (g "maxSearchResultsSize") (.num 25)) p
  let p := alSet "assetsCache" (.bool (g "assetsCache" ≠ .bool false)) p
  let p := alSet "appCache" (.bool (g "appCache" ≠ .bool false)) p
  let p := alSet "appTheme" (jsOr (g "appTheme") (.str "light")) p
  let p := alSet "useHomeKeyToFocusSearchBar"
    (.bool (g "useHomeKeyToFocusSearchBar" = .bool true)) p
  let p := alSet "openExternalLinksInNewTabs"
    (.bool (g "openExternalLinksInNewTabs" ≠ .bool false)) p
  let p := alSet "overrideBrowserLanguage" (g "languageOverride") p
  let p := alSet "disableDragAndDrop" (.bool (g "disableDragAndDrop" = .bool true)) p
  let p := alSet "referrerExtensionURL" (g "referrerExtensionURL") p
  let p := alSet "defaultModeChangeAlertDisplayed"
    (g "defaultModeChangeAlertDisplayed") p
  let p := alSet "contentInjectionMode"
    (jsOr (g "contentInjectionMode")
      (.str (if swAvailable then "serviceworker" else "jquery"))) p
  alSet "useCanvasElementsForWebpTranscoding" .null p

/-- init.js line 126: params.appCache =
params.contentInjectionMode === jquery ? true : params.appCache, executed
after the override loop. -/
def applyJQueryAppCacheRule (os : OverrideState) : OverrideState :=
  let newAppCache :=
    if (alGet "contentInjectionMode" os.params).getD .undef = .str "jquery"
      then JSVal.bool true
      else (alGet "appCache" os.params).getD .undef
  { os with params := alSet "appCache" newAppCache os.params }

/-- The whole parameter-resolution sequence of init.js: defaults from the
store (lines 42-79), then the querystring override loop (lines 87-103), then
the jQuery App Cache rule (line 126).  The PWA success iframe block (lines
104-121) and the UI mirroring block (lines 128-141) mutate neither params
nor the stores and are not modelled. -/
def initAll (storeType : String) (swAvailable : Bool) (search : String)
    (st : StoreState) : OverrideState :=
  applyJQueryAppCacheRule
    (overrideParams storeType search
      { store := st, params := initDefaults storeType swAvailable st })

/-! ## systemAlert of uiUtil.js (lines 47-89)

The function returns a promise; we model the eventual settlement of that
promise.  A promise settles once, so the synchronous reject for a missing
body message wins over any later resolve.  Otherwise the hide handler of the
modal settles the promise by inspecting document.activeElement:
closeSourceId below is the id of that element when the modal is hidden
(approveConfirm for the Confirm button, declineConfirm for Cancel,
closeMessage for Okay, or anything else for the backdrop or the cross). -/

def systemAlert (message closeSourceId : String) : Except String Bool :=
  if message = "" then Except.error "Missing body message"
  else if closeSourceId = "approveConfirm" then Except.ok true
  else Except.ok false

/-! ## String helpers for uiUtil.js regular expressions -/

/-- Model of str.replace of the pattern underscore-dot-star-dollar by the
empty string: keeps the characters before the first underscore. -/
def beforeUnderscore (s : String) : String :=
  (s.data.takeWhile (fun c => c ≠ '_')).asString

/-- Model of str.replace of the pattern caret-nonunderscore-star by the
empty string: keeps the characters from the first underscore on. -/
def fromUnderscore (s : String) : String :=
  (s.data.dropWhile (fun c => c ≠ '_')).asString

/-- Model of str.replace of a single underscore (no g flag) by the empty
string: removes the first underscore, if any. -/
def dropFirstUnderscore (s : String) : String :=
  ((s.data.takeWhile (fun c => c ≠ '_')) ++
    (s.data.dropWhile (fun c => c ≠ '_')).drop 1).asString

/-- Model of str.replace of the pattern slash-nonslash-star-dollar by the
empty string: removes the last path segment, from the last slash on. -/
def stripLastPathSegment (s : String) : String :=
  let r := s.data.reverse
  match r.dropWhile (fun c => c ≠ '/') with
  | [] => s
  | _ :: rest => rest.reverse.asString

/-- Bool test whether pat occurs as a prefix of s (regex caret test). -/
def strStartsWith (s pat : String) : Bool :=
  pat.data.isPrefixOf s.data

/-- Bool test whether needle occurs as a contiguous substring of hay. -/
def strContainsSub (hay needle : String) : Bool :=
  hay.data.tails.any (fun t => needle.data.isPrefixOf t)

/-! ## classList and element-display models -/

/-- DOMTokenList.add: appends the token unless already present. -/
def classAdd (c : String) (l : List String) : List String :=
  if c ∈ l then l else l ++ [c]

/-- DOMTokenList.remove: removes the token. -/
def classRemove (c : String) (l : List String) : List String :=
  l.filter (fun x => x ≠ c)

/-- Sets the display style of the element with the given id when such an
element exists, mirroring a getElementById call guarded by a null check. -/
def setDisplayIfPresent (id val : String) (d : List (String × String)) :
    List (String × String) :=
  if (alGet id d).isSome then alSet id val d else d

/-! ## applyAppTheme of uiUtil.js (lines 493-562) -/

/-- The DOM state read and written by applyAppTheme.  themeSheets lists the
hrefs of the stylesheet links with id kiwixJSTheme inside the article
iframe document, in document order; displays maps the ids of the optional
help and description elements to their display style; the viewArticle
fields model the return link touched by showReturnLink. -/
structure ThemeDomState where
  htmlClasses : List String
  footerClasses : List String
  iframeClasses : List String
  htmlDataTheme : Option String
  docLoaded : Bool
  themeSheets : List String
  displays : List (String × String)
  liConfigureNavActive : Bool
  docTitle : String
  viewArticleDisplay : String
  viewArticleClickListeners : Nat
deriving DecidableEq

/-- JavaScript strict inequality between the old content theme string and
the possibly null new content theme variable. -/
def neqStrOrNull (old : String) : Option String → Prop
  | none => True
  | some s => old ≠ s

instance (old : String) (o : Option String) : Decidable (neqStrOrNull old o) := by
  cases o <;> simp [neqStrOrNull] <;> infer_instance

/-- applyAppTheme.  darkPrefMatches models the prefers-color-scheme media
query; locationPath models protocol plus host plus pathname of
window.location.  The search for the kiwixJS stylesheet name inside the
href of an existing sheet is modelled as literal substring containment. -/
def applyAppTheme (darkPrefMatches : Bool) (locationPath theme : String)
    (st : ThemeDomState) : ThemeDomState :=
  let appTheme :=
    if strStartsWith theme "auto" then (if darkPrefMatches then "dark" else "light")
    else beforeUnderscore theme
  let contentTheme := fromUnderscore theme
  let oldTheme := st.htmlDataTheme.getD ""
  let kiwixJSSheet : Option String :=
    if st.docLoaded then st.themeSheets.head? else none
  let oldAppTheme := beforeUnderscore oldTheme
  let oldContentTheme := fromUnderscore oldTheme
  let htmlCls :=
    if oldAppTheme ≠ "" then classRemove oldAppTheme st.htmlClasses
    else st.htmlClasses
  let footerCls :=
    classRemove (if oldContentTheme = "" then "_light" else oldContentTheme)
      st.footerClasses
  let htmlCls := if appTheme ≠ "" then classAdd appTheme htmlCls else htmlCls
  let footerCls :=
    classAdd (if contentTheme = "" then "_light" else contentTheme) footerCls
  let dataTheme := some (appTheme ++ contentTheme)
  let displays :=
    setDisplayIfPresent (dropFirstUnderscore oldContentTheme ++ "-help") "none"
      st.displays
  let displays :=
    setDisplayIfPresent (dropFirstUnderscore contentTheme ++ "-help") "block"
      displays
  let contentTheme2 : Option String :=
    if strStartsWith theme "auto" ∧ appTheme = "light" then none
    else some contentTheme
  let displays := setDisplayIfPresent "kiwix-auto-description" "none" displays
  let displays :=
    setDisplayIfPresent ("kiwix-" ++ beforeUnderscore theme ++ "-description")
      "block" displays
  let removeOld := oldContentTheme ≠ "" ∧ neqStrOrNull oldContentTheme contentTheme2
  let iframeCls :=
    if removeOld then classRemove oldContentTheme st.iframeClasses
    else st.iframeClasses
  let sheets :=
    if removeOld ∧ kiwixJSSheet.isSome then st.themeSheets.drop 1
    else st.themeSheets
  let addNew : Bool :=
    match contentTheme2 with
    | none => false
    | some ct =>
      if ct = "" then false
      else
        match kiwixJSSheet with
        | none => true
        | some href => !(strContainsSub href ("kiwixJS" ++ ct ++ ".css"))
  let iframeCls :=
    if addNew then classAdd contentTheme iframeCls else iframeCls
  let sheets :=
    if addNew ∧ st.docLoaded then
      sheets ++ [stripLastPathSegment locationPath ++ "/css/kiwixJS" ++
        contentTheme ++ ".css"]
    else sheets
  let showReturn :=
    st.liConfigureNavActive ∧ st.docLoaded ∧
      st.docTitle ≠ "Placeholder for injecting an article into the iframe"
  { st with
    htmlClasses := htmlCls
    footerClasses := footerCls
    iframeClasses := iframeCls
    htmlDataTheme := dataTheme
    themeSheets := sheets
    displays := displays
    viewArticleDisplay := if showReturn then "block" else st.viewArticleDisplay
    viewArticleClickListeners :=
      if showReturn then st.viewArticleClickListeners + 1
      else st.viewArticleClickListeners }

/-! ## removeUrlParameters of uiUtil.js (lines 205-211) -/

/-- First replace of removeUrlParameters: the pattern question mark then
nonquestion-star anchored at the end matches from the last question mark to
the end of the string, so that segment is removed; with no question mark
there is no match and the string is unchanged. -/
def stripQuerySegment (cs : List Char) : List Char :=
  match cs.reverse.dropWhile (fun c => c ≠ '?') with
  | [] => cs
  | _ :: rest => rest.reverse

/-- Second replace of removeUrlParameters: the pattern hash then a run
excluding hash and semicolon anchored at the end matches from the last hash
to the end, provided that tail holds no semicolon (entity references are
deliberately excluded by the source); otherwise nothing is removed. -/
def stripAnchorSegment (cs : List Char) : List Char :=
  match cs.reverse.dropWhile (fun c => c ≠ '#') with
  | [] => cs
  | _ :: rest =>
    if ';' ∈ cs.reverse.takeWhile (fun c => c ≠ '#') then cs else rest.reverse

/-- removeUrlParameters of uiUtil.js: strips a trailing querystring
(the strippedUrl intermediate of the source), then a trailing anchor. -/
def removeUrlParameters (url : String) : String :=
  (stripAnchorSegment (stripQuerySegment url.data)).asString

/-! ## The one-time alert setups of uiUtil.js (claims about lines 240-322) -/

/-- Iterated application, modelling a sequence of n calls. -/
def iterN {α : Type} (f : α → α) : Nat → α → α
  | 0, a => a
  | n + 1, a => iterN f n (f a)

/-- The state touched by displayActiveContentWarning: the module-level
activeContentWarningSetup flag, the display style of the activeContent
alert, and the number of click listeners attached to the dismiss button and
to the two hyperlinks of the alert. -/
structure AcwState where
  setupFlag : Bool
  display : String
  dismissListeners : Nat
  swModeLinkListeners : Nat
  stopListeners : Nat
deriving DecidableEq

/-- displayActiveContentWarning (uiUtil.js lines 240-270): always re-shows
the alert; on the first call only, sets the flag and attaches the dismiss
listener and the two hyperlink listeners. -/
def displayActiveContentWarning (s : AcwState) : AcwState :=
  let s1 := { s with display := "" }
  if s1.setupFlag then s1
  else
    { s1 with
      setupFlag := true
      dismissListeners := s1.dismissListeners + 1
      swModeLinkListeners := s1.swModeLinkListeners + 1
      stopListeners := s1.stopListeners + 1 }

/-- Model of title.replace of the pattern anchored greedy prefix, slash,
captured nonempty nonslash run, dollar, by the capture: when the string has
a slash followed by a nonempty slash-free tail, only that tail is kept;
otherwise there is no match and the string is unchanged. -/
def lastPathComponent (title : String) : String :=
  let r := title.data.reverse
  let seg := r.takeWhile (fun c => c ≠ '/')
  match r.dropWhile (fun c => c ≠ '/') with
  | [] => title
  | _ :: _ => if seg.isEmpty then title else seg.reverse.asString

/-- Model of filename.replace of the character class of filesystem-unsafe
characters (g flag) by an underscore. -/
def sanitizeFilename (filename : String) : String :=
  (filename.data.map (fun c =>
    if c = '/' ∨ c = '\\' ∨ c = ':' ∨ c = '*' ∨ c = '?' ∨ c = '"' ∨ c = '<' ∨
        c = '>' ∨ c = '|' then '_' else c)).asString

/-- The state touched by displayFileDownloadAlert: the module-level
downloadAlertSetup flag, the display style of the downloadAlert element,
the dismiss-button listener count, the list of triggered downloads as
(filename, contentType) pairs, and the display of the spinner. -/
structure DownloadAlertState where
  setupFlag : Bool
  display : String
  dismissListeners : Nat
  downloads : List (String × String)
  searchingDisplay : String
deriving DecidableEq

/-- displayFileDownloadAlert (uiUtil.js lines 282-322).  downloadAs models
the download argument: none for the Boolean true (derive the filename from
the title), some name for an explicit filename.  The programmatic click on
the generated anchor is modelled as succeeding, which records the download;
the IE11 msSaveBlob fallback path is not modelled. -/
def displayFileDownloadAlert (title : String) (downloadAs : Option String)
    (contentType : String) (s : DownloadAlertState) : DownloadAlertState :=
  let s1 := { s with display := "block" }
  let s2 :=
    if s1.setupFlag then s1
    else { s1 with dismissListeners := s1.dismissListeners + 1 }
  let s3 := { s2 with setupFlag := true }
  let ct := if contentType = "" then "application/octet-stream" else contentType
  let filename :=
    sanitizeFilename
      (match downloadAs with
        | none => lastPathComponent title
        | some n2 => n2)
  { s3 with
    downloads := s3.downloads ++ [(filename, ct)]
    searchingDisplay := "none" }

/-! ## feedNodeWithDataURI of uiUtil.js (lines 103-142) -/

/-- ASCII lowercasing of a string, character by character (model of the
case folding performed by a case-insensitive regex). -/
def strToLower (s : String) : String :=
  (s.data.map Char.toLower).asString

/-- Model of the case-insensitive regex test for image slash webp inside
the mime type. -/
def testWebpMime (mimeType : String) : Bool :=
  strContainsSub (strToLower mimeType) "image/webp"

/-- Placeholder for canvas.toDataURL output on the successfully decoded
WebP canvas; the payload is irrelevant to the claims and kept abstract. -/
def canvasToDataURLModel : String := "data:image/png;base64,"

/-- Placeholder for the FileReader readAsDataURL result on a blob of the
given type; the base64 payload is kept abstract as the raw content. -/
def blobToDataURLModel (mimeType content : String) : String :=
  "data:" ++ mimeType ++ ";base64," ++ content

/-- The observable effects of one feedNodeWithDataURI call. -/
structure FeedResult where
  nodeAttr : Option String
  callbackCalls : Nat
  consoleErrors : Nat
  decodeAttempts : Nat
  imageReplacedWithCanvas : Bool
deriving DecidableEq

/-- feedNodeWithDataURI.  webpMachineLoaded models the module-level
webpMachine flag; useCanvasElements models
params.useCanvasElementsForWebpTranscoding; decodeSucceeds models whether
the decodeToCanvas promise fulfils or rejects; nodeAttr0 is the prior value
of the target attribute of the node; hasCallback tells whether the optional
callback argument was supplied.  On the WebP polyfill path the decoder is
invoked once: on success the node is either replaced by the canvas or given
the canvas data URI, on rejection the error is logged, the callback is
still invoked and nothing else happens. -/
def feedNodeWithDataURI (webpMachineLoaded useCanvasElements decodeSucceeds : Bool)
    (nodeAttr0 : Option String) (mimeType content : String)
    (hasCallback : Bool) : FeedResult :=
  if webpMachineLoaded && testWebpMime mimeType then
    if decodeSucceeds then
      { nodeAttr := if useCanvasElements then nodeAttr0 else some canvasToDataURLModel
        callbackCalls := if hasCallback then 1 else 0
        consoleErrors := 0
        decodeAttempts := 1
        imageReplacedWithCanvas := useCanvasElements }
    else
      { nodeAttr := nodeAttr0
        callbackCalls := if hasCallback then 1 else 0
        consoleErrors := 1
        decodeAttempts := 1
        imageReplacedWithCanvas := false }
  else
    { nodeAttr := some (blobToDataURLModel mimeType content)
      callbackCalls := if hasCallback then 1 else 0
      consoleErrors := 0
      decodeAttempts := 0
      imageReplacedWithCanvas := false }

unseal execQuery

/-! ## General helper lemmas -/

theorem takeWhile_append_dropWhile_eq {α : Type} (p : α → Bool) (l : List α) :
    l.takeWhile p ++ l.dropWhile p = l := by
  induction l with
  | nil => rfl
  | cons h t ih =>
    by_cases hp : p h <;>
      simp [List.takeWhile_cons, List.dropWhile_cons, hp, ih]

theorem dropWhile_eq_nil_all {α : Type} (p : α → Bool) (l : List α)
    (h : ∀ x ∈ l, p x) : l.dropWhile p = [] := by
  induction l with
  | nil => rfl
  | cons x t ih =>
    have hx : p x := h x (by simp)
    simp only [List.dropWhile_cons, hx, if_pos]
    exact ih (fun y hy => h y (by simp [hy]))

theorem data_asString (l : List Char) : (l.asString).data = l := rfl

theorem asString_data (s : String) : s.data.asString = s := by
  cases s
  rfl

theorem mem_classAdd (c : String) (l : List String) : c ∈ classAdd c l := by
  unfold classAdd
  split
  · assumption
  · simp

/-! ## Helper lemmas for removeUrlParameters -/

theorem stripQuerySegment_suffix (cs : List Char) :
    ∃ t, stripQuerySegment cs ++ t = cs := by
  unfold stripQuerySegment
  split
  · exact ⟨[], by simp⟩
  · next x rest heq =>
    refine ⟨x :: (cs.reverse.takeWhile (fun c => c ≠ '?')).reverse, ?_⟩
    have h2 := takeWhile_append_dropWhile_eq (fun c : Char => c ≠ '?') cs.reverse
    rw [heq] at h2
    have h3 : cs =
        (cs.reverse.takeWhile (fun c : Char => c ≠ '?') ++ x :: rest).reverse := by
      rw [h2, List.reverse_reverse]
    conv_rhs => rw [h3]
    rw [List.reverse_append, List.reverse_cons, List.append_assoc]
    rfl

theorem stripAnchorSegment_suffix (cs : List Char) :
    ∃ t, stripAnchorSegment cs ++ t = cs := by
  unfold stripAnchorSegment
  split
  · exact ⟨[], by simp⟩
  · next x rest heq =>
    by_cases hsc : ';' ∈ cs.reverse.takeWhile (fun c => c ≠ '#')
    · refine ⟨[], ?_⟩
      rw [if_pos hsc, List.append_nil]
    · rw [if_neg hsc]
      refine ⟨x :: (cs.reverse.takeWhile (fun c => c ≠ '#')).reverse, ?_⟩
      have h2 := takeWhile_append_dropWhile_eq (fun c : Char => c ≠ '#') cs.reverse
      rw [heq] at h2
      have h3 : cs =
          (cs.reverse.takeWhile (fun c : Char => c ≠ '#') ++ x :: rest).reverse := by
        rw [h2, List.reverse_reverse]
      conv_rhs => rw [h3]
      rw [List.reverse_append, List.reverse_cons, List.append_assoc]
      rfl

theorem stripQuerySegment_no_qmark {cs : List Char} (h : '?' ∉ cs) :
    stripQuerySegment cs = cs := by
  have hd : cs.reverse.dropWhile (fun c => c ≠ '?') = [] := by
    refine dropWhile_eq_nil_all _ _ ?_
    intro x hx
    have hxc : x ∈ cs := by simpa using hx
    simp only [decide_eq_true_eq]
    intro hcon
    exact h (hcon ▸ hxc)
  unfold stripQuerySegment
  rw [hd]

theorem stripAnchorSegment_no_hash {cs : List Char} (h : '#' ∉ cs) :
    stripAnchorSegment cs = cs := by
  have hd : cs.reverse.dropWhile (fun c => c ≠ '#') = [] := by
    refine dropWhile_eq_nil_all _ _ ?_
    intro x hx
    have hxc : x ∈ cs := by simpa using hx
    simp only [decide_eq_true_eq]
    intro hcon
    exact h (hcon ▸ hxc)
  unfold stripAnchorSegment
  rw [hd]

/-! ## Claim theorems -/

/-- C10: for every string url, removeUrlParameters url returns a prefix of
url: it only strips a trailing querystring segment and then a trailing
anchor segment; in particular, when url holds no question mark and no hash
character, it is returned unchanged. -/
theorem spec_c10_removeUrlParameters_strips_suffix (url : String) :
    (∃ t : List Char, (removeUrlParameters url).data ++ t = url.data) ∧
    ('?' ∉ url.data → '#' ∉ url.data → removeUrlParameters url = url) := by
  constructor
  · obtain ⟨t1, ht1⟩ := stripAnchorSegment_suffix (stripQuerySegment url.data)
    obtain ⟨t2, ht2⟩ := stripQuerySegment_suffix url.data
    refine ⟨t1 ++ t2, ?_⟩
    unfold removeUrlParameters
    rw [data_asString, ← List.append_assoc, ht1, ht2]
  · intro hq hh
    unfold removeUrlParameters
    rw [stripQuerySegment_no_qmark hq, stripAnchorSegment_no_hash hh,
      asString_data]

/-- Witness for C10 at a concrete URL without querystring or anchor. -/
theorem spec_c10_witness :
    ('?' ∉ "http://e/a".data ∧ '#' ∉ "http://e/a".data) ∧
      removeUrlParameters "http://e/a" = "http://e/a" :=
  ⟨by decide,
    (spec_c10_removeUrlParameters_strips_suffix "http://e/a").2
      (by decide) (by decide)⟩

/-- C2: systemAlert rejects exactly when the message is missing, with the
single rejection reason Missing body message; with a nonempty message it
resolves, to true exactly when the modal was closed through the approve
button and to false for every other close source. -/
theorem spec_c2_systemAlert_settlement (message closeSourceId : String) :
    (systemAlert message closeSourceId = Except.error "Missing body message" ↔
      message = "") ∧
    (∀ e, systemAlert message closeSourceId = Except.error e →
      e = "Missing body message") ∧
    (message ≠ "" → systemAlert message closeSourceId =
      Except.ok (decide (closeSourceId = "approveConfirm"))) := by
  unfold systemAlert
  by_cases hm : message = "" <;>
    by_cases hc : closeSourceId = "approveConfirm" <;>
      simp [hm, hc]

/-- Witness for C2: a nonempty message closed through the Okay button
resolves to false. -/
theorem spec_c2_witness :
    ("hello" ≠ "") ∧
      systemAlert "hello" "closeMessage" =
        Except.ok (decide ("closeMessage" = "approveConfirm")) :=
  ⟨by decide, (spec_c2_systemAlert_settlement "hello" "closeMessage").2.2 (by decide)⟩

/-- C7: when the WebP polyfill is active, the mime type is WebP and the
decode fails, feedNodeWithDataURI logs one console error, still invokes the
callback when one was supplied so that the next item is processed, leaves
the target attribute of the node unchanged, attempts the decode exactly
once (no retry) and performs no canvas replacement. -/
theorem spec_c7_feedNode_decode_failure (useCanvasElements : Bool)
    (nodeAttr0 : Option String) (mimeType content : String) (hasCallback : Bool)
    (hmime : testWebpMime mimeType = true) :
    feedNodeWithDataURI true useCanvasElements false nodeAttr0 mimeType content
        hasCallback =
      { nodeAttr := nodeAttr0
        callbackCalls := if hasCallback then 1 else 0
        consoleErrors := 1
        decodeAttempts := 1
        imageReplacedWithCanvas := false } := by
  unfold feedNodeWithDataURI
  simp [hmime]

/-- Witness for C7 at a concrete WebP mime type. -/
theorem spec_c7_witness :
    testWebpMime "image/webp" = true ∧
      feedNodeWithDataURI true false false (some "old") "image/webp" "c" true =
        { nodeAttr := some "old"
          callbackCalls := 1
          consoleErrors := 1
          decodeAttempts := 1
          imageReplacedWithCanvas := false } := by
  refine ⟨by decide, ?_⟩
  have h := spec_c7_feedNode_decode_failure false (some "old") "image/webp" "c"
    true (by decide)
  simpa using h

/-- C1: applying the theme dark_invert puts class dark on the root html
element and class _invert on the footer, whatever the prior DOM state: the
theme string is split at the underscore into the appTheme for the root and
the contentTheme for the footer. -/
theorem spec_c1_applyAppTheme_dark_invert (darkPrefMatches : Bool)
    (locationPath : String) (st : ThemeDomState) :
    "dark" ∈ (applyAppTheme darkPrefMatches locationPath "dark_invert" st).htmlClasses ∧
    "_invert" ∈ (applyAppTheme darkPrefMatches locationPath "dark_invert" st).footerClasses := by
  constructor
  · exact mem_classAdd "dark" _
  · exact mem_classAdd "_invert" _

/-! ## Helper lemmas for the one-time alert setups -/

theorem acw_first_call {s : AcwState} (h : s.setupFlag = false) :
    displayActiveContentWarning s =
      { setupFlag := true
        display := ""
        dismissListeners := s.dismissListeners + 1
        swModeLinkListeners := s.swModeLinkListeners + 1
        stopListeners := s.stopListeners + 1 } := by
  unfold displayActiveContentWarning
  simp [h]

theorem acw_later_call {s : AcwState} (h : s.setupFlag = true) :
    displayActiveContentWarning s = { s with display := "" } := by
  unfold displayActiveContentWarning
  simp [h]

theorem acw_iter_preserves (n : Nat) (s : AcwState) (h : s.setupFlag = true) :
    (iterN displayActiveContentWarning n s).setupFlag = true ∧
    (iterN displayActiveContentWarning n s).dismissListeners = s.dismissListeners ∧
    (iterN displayActiveContentWarning n s).swModeLinkListeners = s.swModeLinkListeners ∧
    (iterN displayActiveContentWarning n s).stopListeners = s.stopListeners := by
  induction n generalizing s with
  | zero => exact ⟨h, rfl, rfl, rfl⟩
  | succ n ih =>
    rw [iterN, acw_later_call h]
    exact ih { s with display := "" } h

theorem dl_first_call (title : String) (downloadAs : Option String)
    (contentType : String) {s : DownloadAlertState} (h : s.setupFlag = false) :
    (displayFileDownloadAlert title downloadAs contentType s).setupFlag = true ∧
    (displayFileDownloadAlert title downloadAs contentType s).dismissListeners =
      s.dismissListeners + 1 := by
  unfold displayFileDownloadAlert
  simp [h]

theorem dl_later_call (title : String) (downloadAs : Option String)
    (contentType : String) {s : DownloadAlertState} (h : s.setupFlag = true) :
    (displayFileDownloadAlert title downloadAs contentType s).setupFlag = true ∧
    (displayFileDownloadAlert title downloadAs contentType s).dismissListeners =
      s.dismissListeners := by
  unfold displayFileDownloadAlert
  simp [h]

theorem dl_iter_preserves (title : String) (downloadAs : Option String)
    (contentType : String) (n : Nat) (s : DownloadAlertState)
    (h : s.setupFlag = true) :
    (iterN (displayFileDownloadAlert title downloadAs contentType) n s).setupFlag =
      true ∧
    (iterN (displayFileDownloadAlert title downloadAs contentType) n s).dismissListeners =
      s.dismissListeners := by
  induction n generalizing s with
  | zero => exact ⟨h, rfl⟩
  | succ n ih =>
    rw [iterN]
    obtain ⟨h1, h2⟩ := ih (displayFileDownloadAlert title downloadAs contentType s)
      (dl_later_call title downloadAs contentType h).1
    refine ⟨h1, ?_⟩
    rw [h2, (dl_later_call title downloadAs contentType h).2]

/-- C6: over any sequence of calls starting from the pristine module state,
the dismiss-button listener of each alert (and the two hyperlink listeners
of the active-content warning) is attached exactly once, by the first call;
once the setup flag is set, a later displayActiveContentWarning call only
re-shows the alert, and a later displayFileDownloadAlert call attaches no
further dismiss listener. -/
theorem spec_c6_listeners_attached_once (n : Nat) (s0 : AcwState)
    (sd0 : DownloadAlertState) (title contentType : String)
    (downloadAs : Option String) (hn : 1 ≤ n)
    (hs : s0.setupFlag = false) (h1 : s0.dismissListeners = 0)
    (h2 : s0.swModeLinkListeners = 0) (h3 : s0.stopListeners = 0)
    (hd : sd0.setupFlag = false) (hd1 : sd0.dismissListeners = 0) :
    ((iterN displayActiveContentWarning n s0).dismissListeners = 1 ∧
      (iterN displayActiveContentWarning n s0).swModeLinkListeners = 1 ∧
      (iterN displayActiveContentWarning n s0).stopListeners = 1) ∧
    (∀ s : AcwState, s.setupFlag = true →
      displayActiveContentWarning s = { s with display := "" }) ∧
    ((iterN (displayFileDownloadAlert title downloadAs contentType) n sd0).dismissListeners = 1) ∧
    (∀ sd : DownloadAlertState, sd.setupFlag = true →
      (displayFileDownloadAlert title downloadAs contentType sd).dismissListeners =
        sd.dismissListeners) := by
  obtain ⟨m, rfl⟩ : ∃ m, n = m + 1 := ⟨n - 1, by omega⟩
  refine ⟨?_, fun s h => acw_later_call h, ?_,
    fun sd h => (dl_later_call title downloadAs contentType h).2⟩
  · rw [iterN, acw_first_call hs]
    have hp := acw_iter_preserves m
      { setupFlag := true
        display := ""
        dismissListeners := s0.dismissListeners + 1
        swModeLinkListeners := s0.swModeLinkListeners + 1
        stopListeners := s0.stopListeners + 1 } rfl
    rw [hp.2.1, hp.2.2.1, hp.2.2.2, h1, h2, h3]
    exact ⟨rfl, rfl, rfl⟩
  · rw [iterN]
    have hf := dl_first_call title downloadAs contentType hd
    have hp := dl_iter_preserves title downloadAs contentType m
      (displayFileDownloadAlert title downloadAs contentType sd0) hf.1
    rw [hp.2, hf.2, hd1]

/-- Witness for C6: two calls from the pristine state. -/
theorem spec_c6_witness :
    (1 ≤ 2 ∧ (AcwState.mk false "none" 0 0 0).setupFlag = false ∧
      (DownloadAlertState.mk false "none" 0 [] "").setupFlag = false) ∧
    ((iterN displayActiveContentWarning 2 (AcwState.mk false "none" 0 0 0)).dismissListeners = 1 ∧
      (iterN (displayFileDownloadAlert "a/b" none "") 2
        (DownloadAlertState.mk false "none" 0 [] "")).dismissListeners = 1) :=
  ⟨⟨by decide, rfl, rfl⟩,
    ⟨(spec_c6_listeners_attached_once 2 (AcwState.mk false "none" 0 0 0)
        (DownloadAlertState.mk false "none" 0 [] "") "a/b" "" none
        (by decide) rfl rfl rfl rfl rfl rfl).1.1,
      (spec_c6_listeners_attached_once 2 (AcwState.mk false "none" 0 0 0)
        (DownloadAlertState.mk false "none" 0 [] "") "a/b" "" none
        (by decide) rfl rfl rfl rfl rfl rfl).2.2.1⟩⟩

/-! ## Characterisations of the settings store, per storeType -/

theorem getSetting_cookie_eq (name : String) (st : StoreState) :
    getSetting "cookie" name st =
      convertRetrievedValue
        (match alGet name st.cookies with
          | some v => if v = "" then JSVal.null else JSVal.str (decodeURIComponent v)
          | none => JSVal.null) := rfl

theorem getSetting_local_eq (name : String) (st : StoreState) :
    getSetting "local_storage" name st =
      convertRetrievedValue
        (match alGet (keyPrefixVal ++ name) st.localStorage with
          | some v => JSVal.str v
          | none => JSVal.null) := rfl

theorem setSetting_cookie_cookies (name : String) (val : JSVal) (st : StoreState) :
    (setSetting "cookie" name val st).cookies =
      alSet (encodeURIComponent name) (encodeURIComponent (jsToString val))
        st.cookies := rfl

theorem setSetting_cookie_local (name : String) (val : JSVal) (st : StoreState) :
    (setSetting "cookie" name val st).localStorage = st.localStorage := rfl

theorem setSetting_local_local (name : String) (val : JSVal) (st : StoreState) :
    (setSetting "local_storage" name val st).localStorage =
      alSet (keyPrefixVal ++ name) (jsToString (coerceStoredBool val))
        st.localStorage := rfl

theorem setSetting_local_cookies (name : String) (val : JSVal) (st : StoreState) :
    (setSetting "local_storage" name val st).cookies = st.cookies := rfl

theorem setSetting_other (storeType name : String) (val : JSVal) (st : StoreState)
    (h1 : storeType ≠ "cookie") (h2 : storeType ≠ "local_storage") :
    setSetting storeType name val st = st := by
  simp [setSetting, h1, h2]

/-- C3 counterexample: in cookie mode the setting foo is written under the
bare cookie name foo, not under the prefixed key kiwixjs-foo, and is read
back under the same bare name, so the claim that both modes key every
setting by the fixed prefix fails on the cookie branch. -/
theorem spec_c3_counterexample :
    alGet ("kiwixjs-" ++ "foo")
        (setSetting "cookie" "foo" (JSVal.str "bar") emptyStore).cookies = none ∧
    alGet "foo" (setSetting "cookie" "foo" (JSVal.str "bar") emptyStore).cookies =
      some "bar" ∧
    getSetting "cookie" "foo" (setSetting "cookie" "foo" (JSVal.str "bar") emptyStore) =
      JSVal.str "bar" :=
  ⟨rfl, rfl, rfl⟩

/-- C3 amended: in local_storage mode every setting is keyed by the fixed
prefix kiwixjs-: setSetting writes under the prefixed key and getSetting
reads back under the same prefixed key; in cookie mode both functions use
the bare, unprefixed setting name as the cookie key. -/
theorem spec_c3_amended_prefixed_keys (name : String) (val : JSVal)
    (st st2 : StoreState) :
    ((setSetting "local_storage" name val st).localStorage =
      alSet (keyPrefixVal ++ name) (jsToString (coerceStoredBool val))
        st.localStorage) ∧
    ((setSetting "local_storage" name val st).cookies = st.cookies) ∧
    ((setSetting "cookie" name val st).cookies =
      alSet (encodeURIComponent name) (encodeURIComponent (jsToString val))
        st.cookies) ∧
    ((setSetting "cookie" name val st).localStorage = st.localStorage) ∧
    (alGet (keyPrefixVal ++ name) st.localStorage =
        alGet (keyPrefixVal ++ name) st2.localStorage →
      getSetting "local_storage" name st = getSetting "local_storage" name st2) ∧
    (alGet name st.cookies = alGet name st2.cookies →
      getSetting "cookie" name st = getSetting "cookie" name st2) := by
  refine ⟨rfl, rfl, rfl, rfl, ?_, ?_⟩
  · intro h
    rw [getSetting_local_eq, getSetting_local_eq, h]
  · intro h
    rw [getSetting_cookie_eq, getSetting_cookie_eq, h]

/-- Witness for the amended C3: getSetting in local_storage mode depends
only on the prefixed key, across two different stores agreeing there. -/
theorem spec_c3_amended_witness :
    (alGet (keyPrefixVal ++ "foo") emptyStore.localStorage =
      alGet (keyPrefixVal ++ "foo")
        (StoreState.mk [("other", "1")] [("kiwixjs-other", "1")]).localStorage) ∧
    getSetting "local_storage" "foo" emptyStore =
      getSetting "local_storage" "foo"
        (StoreState.mk [("other", "1")] [("kiwixjs-other", "1")]) :=
  ⟨by decide,
    (spec_c3_amended_prefixed_keys "foo" (JSVal.str "bar") emptyStore
      (StoreState.mk [("other", "1")] [("kiwixjs-other", "1")])).2.2.2.2.1
      (by decide)⟩

/-- C4: the settings store is last-write-wins: after writing v1 and then v2
under one name, a read gives the same outcome as after writing v2 alone;
and a write to one name leaves the value read under every other name
unchanged.  This holds in cookie mode, in local_storage mode and in the
degenerate storeType none, where the store ignores writes entirely. -/
theorem spec_c4_last_write_wins (storeType name : String) (v1 v2 : JSVal)
    (st : StoreState) :
    (getSetting storeType name
        (setSetting storeType name v2 (setSetting storeType name v1 st)) =
      getSetting storeType name (setSetting storeType name v2 st)) ∧
    (∀ name2, name2 ≠ name →
      getSetting storeType name2 (setSetting storeType name v1 st) =
        getSetting storeType name2 st) := by
  by_cases hc : storeType = "cookie"
  · subst hc
    constructor
    · rw [getSetting_cookie_eq, getSetting_cookie_eq, setSetting_cookie_cookies,
        setSetting_cookie_cookies, setSetting_cookie_cookies]
      simp only [encodeURIComponent]
      rw [alGet_alSet_self, alGet_alSet_self]
    · intro name2 hne
      rw [getSetting_cookie_eq, getSetting_cookie_eq, setSetting_cookie_cookies]
      simp only [encodeURIComponent]
      rw [alGet_alSet_ne hne]
  · by_cases hl : storeType = "local_storage"
    · subst hl
      constructor
      · rw [getSetting_local_eq, getSetting_local_eq, setSetting_local_local,
          setSetting_local_local, setSetting_local_local, alGet_alSet_self,
          alGet_alSet_self]
      · intro name2 hne
        have hne2 : keyPrefixVal ++ name2 ≠ keyPrefixVal ++ name := fun h =>
          hne (string_append_left_cancel h)
        rw [getSetting_local_eq, getSetting_local_eq, setSetting_local_local,
          alGet_alSet_ne hne2]
    · have he : ∀ (v : JSVal) (st2 : StoreState),
          setSetting storeType name v st2 = st2 := fun v st2 =>
        setSetting_other storeType name v st2 hc hl
      simp only [he]
      exact ⟨trivial, fun name2 _ => trivial⟩

/-- Witness for C4: a write to foo leaves the reading of other unchanged. -/
theorem spec_c4_witness :
    ("other" ≠ "foo") ∧
      getSetting "local_storage" "other"
        (setSetting "local_storage" "foo" (JSVal.str "v1") emptyStore) =
        getSetting "local_storage" "other" emptyStore :=
  ⟨by decide,
    (spec_c4_last_write_wins "local_storage" "foo" (JSVal.str "v1")
      (JSVal.str "v2") emptyStore).2 "other" (by decide)⟩

/-- C5: every value surfaced by the settings store is a string or a boolean
or null: getSetting yields null for an absent or undefined entry, true for
the stored text true, false for the stored text false, and the stored
string otherwise (in cookie mode for a nonempty stored text, an empty
cookie value being invisible to the lookup regex); and the querystring
override loop applies the same true/false conversion before storing each
pair with setSetting and assigning it to params. -/
theorem spec_c5_store_value_domain :
    (∀ name st, alGet (keyPrefixVal ++ name) st.localStorage = none →
      getSetting "local_storage" name st = JSVal.null) ∧
    (∀ name st, alGet (keyPrefixVal ++ name) st.localStorage = some "undefined" →
      getSetting "local_storage" name st = JSVal.null) ∧
    (∀ name st, alGet (keyPrefixVal ++ name) st.localStorage = some "true" →
      getSetting "local_storage" name st = JSVal.bool true) ∧
    (∀ name st, alGet (keyPrefixVal ++ name) st.localStorage = some "false" →
      getSetting "local_storage" name st = JSVal.bool false) ∧
    (∀ name st s, alGet (keyPrefixVal ++ name) st.localStorage = some s →
      s ≠ "undefined" → s ≠ "true" → s ≠ "false" →
      getSetting "local_storage" name st = JSVal.str s) ∧
    (∀ name st, alGet name st.cookies = none →
      getSetting "cookie" name st = JSVal.null) ∧
    (∀ name st, alGet name st.cookies = some "undefined" →
      getSetting "cookie" name st = JSVal.null) ∧
    (∀ name st, alGet name st.cookies = some "true" →
      getSetting "cookie" name st = JSVal.bool true) ∧
    (∀ name st, alGet name st.cookies = some "false" →
      getSetting "cookie" name st = JSVal.bool false) ∧
    (∀ name st s, alGet name st.cookies = some s → s ≠ "" → s ≠ "undefined" →
      s ≠ "true" → s ≠ "false" → getSetting "cookie" name st = JSVal.str s) ∧
    (qsBoolConvert "true" = JSVal.bool true ∧
      qsBoolConvert "false" = JSVal.bool false ∧
      ∀ v, v ≠ "true" → v ≠ "false" → qsBoolConvert v = JSVal.str v) ∧
    (∀ storeType os k v, k ≠ "" → v ≠ "" → decodeURIComponent k ≠ "title" →
      (overrideStep storeType os (k, v)).params =
        alSet (decodeURIComponent k) (qsBoolConvert (decodeURIComponent v))
          os.params ∧
      (overrideStep storeType os (k, v)).store =
        setSetting storeType (decodeURIComponent k)
          (qsBoolConvert (decodeURIComponent v)) os.store) := by
  refine ⟨?_, ?_, ?_, ?_, ?_, ?_, ?_, ?_, ?_, ?_, ?_, ?_⟩
  · intro name st h
    rw [getSetting_local_eq, h]
    rfl
  · intro name st h
    rw [getSetting_local_eq, h]
    rfl
  · intro name st h
    rw [getSetting_local_eq, h]
    rfl
  · intro name st h
    rw [getSetting_local_eq, h]
    rfl
  · intro name st s h hs1 hs2 hs3
    rw [getSetting_local_eq, h]
    simp [convertRetrievedValue, hs1, hs2, hs3]
  · intro name st h
    rw [getSetting_cookie_eq, h]
    rfl
  · intro name st h
    rw [getSetting_cookie_eq, h]
    rfl
  · intro name st h
    rw [getSetting_cookie_eq, h]
    rfl
  · intro name st h
    rw [getSetting_cookie_eq, h]
    rfl
  · intro name st s h hs0 hs1 hs2 hs3
    rw [getSetting_cookie_eq, h]
    simp only [if_neg hs0, decodeURIComponent]
    simp [convertRetrievedValue, hs1, hs2, hs3]
  · refine ⟨rfl, rfl, ?_⟩
    intro v h1 h2
    simp [qsBoolConvert, h1, h2]
  · intro storeType os k v hk hv ht
    simp only [overrideStep]
    simp [hk, hv, ht]

/-- Witness for C5: a stored plain text is surfaced verbatim as a string. -/
theorem spec_c5_witness :
    (alGet (keyPrefixVal ++ "x")
        (StoreState.mk [] [("kiwixjs-x", "hello")]).localStorage = some "hello") ∧
    getSetting "local_storage" "x" (StoreState.mk [] [("kiwixjs-x", "hello")]) =
      JSVal.str "hello" :=
  ⟨by decide,
    spec_c5_store_value_domain.2.2.2.2.1 "x"
      (StoreState.mk [] [("kiwixjs-x", "hello")]) "hello" (by decide) (by decide)
      (by decide) (by decide)⟩

/-! ## C8: the jQuery App Cache rule -/

theorem applyJQueryAppCacheRule_jquery (os : OverrideState)
    (h : alGet "contentInjectionMode" (applyJQueryAppCacheRule os).params =
      some (JSVal.str "jquery")) :
    alGet "appCache" (applyJQueryAppCacheRule os).params =
      some (JSVal.bool true) := by
  unfold applyJQueryAppCacheRule at h ⊢
  by_cases hc :
      (alGet "contentInjectionMode" os.params).getD JSVal.undef =
        JSVal.str "jquery"
  · rw [alGet_alSet_self]
    rw [if_pos hc]
  · exfalso
    have hne : ("contentInjectionMode" : String) ≠ "appCache" := by decide
    rw [alGet_alSet_ne hne] at h
    rw [h] at hc
    exact hc rfl

/-- C8: after the whole init.js parameter-resolution sequence (defaults,
stored settings, querystring overrides, then the line 126 rule), whenever
params.contentInjectionMode is the string jquery, params.appCache is the
boolean true, regardless of the prior store contents or of any querystring
override. -/
theorem spec_c8_jquery_forces_appCache (storeType : String) (swAvailable : Bool)
    (search : String) (st : StoreState)
    (h : alGet "contentInjectionMode" (initAll storeType swAvailable search st).params =
      some (JSVal.str "jquery")) :
    alGet "appCache" (initAll storeType swAvailable search st).params =
      some (JSVal.bool true) := by
  unfold initAll at h ⊢
  exact applyJQueryAppCacheRule_jquery _ h

/-- Witness for C8: a store whose persisted contentInjectionMode is jquery
yields appCache true after init. -/
theorem spec_c8_witness :
    alGet "contentInjectionMode"
        (initAll "local_storage" false ""
          (StoreState.mk [] [("kiwixjs-contentInjectionMode", "jquery")])).params =
      some (JSVal.str "jquery") ∧
    alGet "appCache"
        (initAll "local_storage" false ""
          (StoreState.mk [] [("kiwixjs-contentInjectionMode", "jquery")])).params =
      some (JSVal.bool true) :=
  ⟨by decide,
    spec_c8_jquery_forces_appCache "local_storage" false ""
      (StoreState.mk [] [("kiwixjs-contentInjectionMode", "jquery")]) (by decide)⟩

/-! ## Helper lemmas for the override loop (C9) -/

theorem jsToString_qsBoolConvert (v : String) :
    jsToString (qsBoolConvert v) = v := by
  unfold qsBoolConvert
  by_cases h1 : v = "true"
  · simp [h1, jsToString]
  · by_cases h2 : v = "false" <;> simp [h1, h2, jsToString]

theorem jsToString_coerce_qsBoolConvert (v : String) :
    jsToString (coerceStoredBool (qsBoolConvert v)) = v := by
  unfold qsBoolConvert
  by_cases h1 : v = "true"
  · simp [h1, coerceStoredBool, jsToString]
  · by_cases h2 : v = "false" <;> simp [h1, h2, coerceStoredBool, jsToString]

theorem overrideStep_skip (storeType : String) (os : OverrideState) (k v : String)
    (h : ¬(k ≠ "" ∧ v ≠ "")) : overrideStep storeType os (k, v) = os := by
  simp [overrideStep, h]

theorem overrideStep_skip_title (storeType : String) (os : OverrideState)
    (k v : String) (ht : k = "title") : overrideStep storeType os (k, v) = os := by
  simp [overrideStep, decodeURIComponent, ht]

theorem overrideStep_writes_eq (storeType : String) (os : OverrideState)
    (k v : String) (hk : k ≠ "") (hv : v ≠ "") (ht : k ≠ "title") :
    overrideStep storeType os (k, v) =
      { store := setSetting storeType k (qsBoolConvert v) os.store
        params := alSet k (qsBoolConvert v) os.params } := by
  simp [overrideStep, decodeURIComponent, hk, hv, ht]

theorem setSetting_frame (storeType name K : String) (val : JSVal)
    (st : StoreState) (hne : K ≠ name) :
    alGet K (setSetting storeType name val st).cookies = alGet K st.cookies ∧
    alGet (keyPrefixVal ++ K) (setSetting storeType name val st).localStorage =
      alGet (keyPrefixVal ++ K) st.localStorage := by
  by_cases hc : storeType = "cookie"
  · subst hc
    constructor
    · rw [setSetting_cookie_cookies]
      simp only [encodeURIComponent]
      exact alGet_alSet_ne hne _ _
    · rw [setSetting_cookie_local]
  · by_cases hl : storeType = "local_storage"
    · subst hl
      constructor
      · rw [setSetting_local_cookies]
      · rw [setSetting_local_local]
        exact alGet_alSet_ne (fun h => hne (string_append_left_cancel h)) _ _
    · rw [setSetting_other _ _ _ _ hc hl]
      exact ⟨rfl, rfl⟩

theorem setSetting_written_value (storeType name v : String) (st : StoreState) :
    (storeType = "cookie" →
      alGet name (setSetting storeType name (qsBoolConvert v) st).cookies = some v) ∧
    (storeType = "local_storage" →
      alGet (keyPrefixVal ++ name)
        (setSetting storeType name (qsBoolConvert v) st).localStorage = some v) := by
  constructor
  · intro hc
    subst hc
    rw [setSetting_cookie_cookies]
    simp only [encodeURIComponent]
    rw [alGet_alSet_self, jsToString_qsBoolConvert]
  · intro hl
    subst hl
    rw [setSetting_local_local, alGet_alSet_self, jsToString_coerce_qsBoolConvert]

theorem overrideStep_frame_ne (storeType : String) (os : OverrideState)
    (k v K : String) (hne : k ≠ K) :
    alGet K (overrideStep storeType os (k, v)).params = alGet K os.params ∧
    alGet K (overrideStep storeType os (k, v)).store.cookies =
      alGet K os.store.cookies ∧
    alGet (keyPrefixVal ++ K) (overrideStep storeType os (k, v)).store.localStorage =
      alGet (keyPrefixVal ++ K) os.store.localStorage := by
  by_cases h1 : k ≠ "" ∧ v ≠ ""
  · by_cases h2 : k = "title"
    · rw [overrideStep_skip_title storeType os k v h2]
      exact ⟨rfl, rfl, rfl⟩
    · rw [overrideStep_writes_eq storeType os k v h1.1 h1.2 h2]
      have hsf := setSetting_frame storeType k K (qsBoolConvert v) os.store
        (Ne.symm hne)
      exact ⟨alGet_alSet_ne (Ne.symm hne) _ _, hsf.1, hsf.2⟩
  · rw [overrideStep_skip storeType os k v h1]
    exact ⟨rfl, rfl, rfl⟩

theorem lastQueryVal_cons (K k v : String) (ps : List (String × String)) :
    lastQueryVal K ((k, v) :: ps) =
      match lastQueryVal K ps with
      | some w => some w
      | none =>
        if k ≠ "" ∧ v ≠ "" ∧ decodeURIComponent k = K then some v else none := rfl

theorem override_fold_frame_title (storeType : String)
    (pairs : List (String × String)) (os : OverrideState) :
    alGet "title" (pairs.foldl (overrideStep storeType) os).params =
      alGet "title" os.params ∧
    alGet "title" (pairs.foldl (overrideStep storeType) os).store.cookies =
      alGet "title" os.store.cookies ∧
    alGet (keyPrefixVal ++ "title")
        (pairs.foldl (overrideStep storeType) os).store.localStorage =
      alGet (keyPrefixVal ++ "title") os.store.localStorage := by
  induction pairs generalizing os with
  | nil => exact ⟨rfl, rfl, rfl⟩
  | cons p ps ih =>
    obtain ⟨k, v⟩ := p
    rw [List.foldl_cons]
    by_cases hk : k = "title"
    · rw [overrideStep_skip_title storeType os k v hk]
      exact ih os
    · obtain ⟨a1, a2, a3⟩ := ih (overrideStep storeType os (k, v))
      obtain ⟨b1, b2, b3⟩ := overrideStep_frame_ne storeType os k v "title" hk
      exact ⟨a1.trans b1, a2.trans b2, a3.trans b3⟩

theorem override_fold_lastVal (storeType : String) (pairs : List (String × String))
    (os : OverrideState) (K : String) (hK : K ≠ "title") :
    (∀ v, lastQueryVal K pairs = some v →
      alGet K (pairs.foldl (overrideStep storeType) os).params =
        some (qsBoolConvert (decodeURIComponent v)) ∧
      (storeType = "cookie" →
        alGet K (pairs.foldl (overrideStep storeType) os).store.cookies =
          some (decodeURIComponent v)) ∧
      (storeType = "local_storage" →
        alGet (keyPrefixVal ++ K)
          (pairs.foldl (overrideStep storeType) os).store.localStorage =
          some (decodeURIComponent v))) ∧
    (lastQueryVal K pairs = none →
      alGet K (pairs.foldl (overrideStep storeType) os).params = alGet K os.params ∧
      alGet K (pairs.foldl (overrideStep storeType) os).store.cookies =
        alGet K os.store.cookies ∧
      alGet (keyPrefixVal ++ K)
          (pairs.foldl (overrideStep storeType) os).store.localStorage =
        alGet (keyPrefixVal ++ K) os.store.localStorage) := by
  induction pairs generalizing os with
  | nil =>
    constructor
    · intro v hv
      exact absurd hv (by simp [lastQueryVal])
    · intro _
      exact ⟨rfl, rfl, rfl⟩
  | cons p ps ih =>
    obtain ⟨k, v0⟩ := p
    simp only [List.foldl_cons]
    constructor
    · intro v hv
      cases hps : lastQueryVal K ps with
      | some w =>
        have hv2 : lastQueryVal K ps = some v := by
          simp only [lastQueryVal_cons, hps] at hv
          rw [hps, hv]
        exact (ih (overrideStep storeType os (k, v0))).1 v hv2
      | none =>
        have hv3 :
            (if k ≠ "" ∧ v0 ≠ "" ∧ decodeURIComponent k = K then some v0
              else none) = some v := by
          simpa only [lastQueryVal_cons, hps] using hv
        by_cases hg : k ≠ "" ∧ v0 ≠ "" ∧ decodeURIComponent k = K
        · rw [if_pos hg] at hv3
          have hveq : v0 = v := Option.some.inj hv3
          subst hveq
          have hkK : k = K := by simpa [decodeURIComponent] using hg.2.2
          subst hkK
          have htitle : k ≠ "title" := hK
          have hw := overrideStep_writes_eq storeType os k v0 hg.1 hg.2.1 htitle
          obtain ⟨f1, f2, f3⟩ := (ih (overrideStep storeType os (k, v0))).2 hps
          have hwr := setSetting_written_value storeType k v0 os.store
          refine ⟨?_, ?_, ?_⟩
          · rw [f1, hw]
            simp only [decodeURIComponent]
            exact alGet_alSet_self _ _ _
          · intro hc
            rw [f2, hw]
            simp only [decodeURIComponent]
            exact hwr.1 hc
          · intro hl
            rw [f3, hw]
            simp only [decodeURIComponent]
            exact hwr.2 hl
        · rw [if_neg hg] at hv3
          exact absurd hv3 (by simp)
    · intro hnone
      have h4 : lastQueryVal K ps = none ∧
          ¬(k ≠ "" ∧ v0 ≠ "" ∧ decodeURIComponent k = K) := by
        cases hps : lastQueryVal K ps with
        | some w =>
          rw [lastQueryVal_cons, hps] at hnone
          exact absurd hnone (by simp)
        | none =>
          refine ⟨rfl, ?_⟩
          intro hg
          rw [lastQueryVal_cons, hps, if_pos hg] at hnone
          exact absurd hnone (by simp)
      obtain ⟨hps, hng⟩ := h4
      by_cases h1 : k ≠ "" ∧ v0 ≠ ""
      · obtain ⟨f1, f2, f3⟩ := (ih (overrideStep storeType os (k, v0))).2 hps
        have hkK : k ≠ K := by
          intro hcon
          exact hng ⟨h1.1, h1.2, by simp [decodeURIComponent, hcon]⟩
        obtain ⟨b1, b2, b3⟩ := overrideStep_frame_ne storeType os k v0 K hkK
        exact ⟨f1.trans b1, f2.trans b2, f3.trans b3⟩
      · rw [overrideStep_skip storeType os k v0 h1]
        exact (ih os).2 hps

/-- C9: the override loop never writes the title key: for every search
string, the persisted title setting (in either store) and params title are
left unchanged; and for every other (nonempty) key present in the parsed
querystring, the URI-decoded, Boolean-converted value of its last
occurrence is written to params and, through setSetting, to the active
store, while a key absent from the querystring keeps its prior value
everywhere. -/
theorem spec_c9_title_never_overridden (storeType search : String)
    (os : OverrideState) (K : String) (hK : K ≠ "title") :
    (alGet "title" (overrideParams storeType search os).params =
        alGet "title" os.params ∧
      alGet "title" (overrideParams storeType search os).store.cookies =
        alGet "title" os.store.cookies ∧
      alGet (keyPrefixVal ++ "title")
          (overrideParams storeType search os).store.localStorage =
        alGet (keyPrefixVal ++ "title") os.store.localStorage) ∧
    (∀ v, lastQueryVal K (parseSearch search) = some v →
      alGet K (overrideParams storeType search os).params =
        some (qsBoolConvert (decodeURIComponent v)) ∧
      (storeType = "cookie" →
        alGet K (overrideParams storeType search os).store.cookies =
          some (decodeURIComponent v)) ∧
      (storeType = "local_storage" →
        alGet (keyPrefixVal ++ K)
          (overrideParams storeType search os).store.localStorage =
          some (decodeURIComponent v))) ∧
    (lastQueryVal K (parseSearch search) = none →
      alGet K (overrideParams storeType search os).params = alGet K os.params ∧
      alGet K (overrideParams storeType search os).store.cookies =
        alGet K os.store.cookies ∧
      alGet (keyPrefixVal ++ K)
          (overrideParams storeType search os).store.localStorage =
        alGet (keyPrefixVal ++ K) os.store.localStorage) := by
  unfold overrideParams
  obtain ⟨h1, h2⟩ := override_fold_lastVal storeType (parseSearch search) os K hK
  exact ⟨override_fold_frame_title storeType (parseSearch search) os, h1, h2⟩

/-- Witness for C9 on a concrete querystring carrying both a title pair and
an appTheme pair. -/
theorem spec_c9_witness :
    ("appTheme" ≠ "title" ∧
      lastQueryVal "appTheme" (parseSearch "?appTheme=dark&title=secret") =
        some "dark") ∧
    alGet "appTheme"
        (overrideParams "local_storage" "?appTheme=dark&title=secret"
          (OverrideState.mk emptyStore [])).params =
      some (qsBoolConvert (decodeURIComponent "dark")) :=
  ⟨⟨by decide, by decide⟩,
    ((spec_c9_title_never_overridden "local_storage" "?appTheme=dark&title=secret"
        (OverrideState.mk emptyStore []) "appTheme" (by decide)).2.1 "dark"
      (by decide)).1⟩
